import Mathlib

/-!
Verification of `scripts/mp_pl_comparer.py`: a script comparing the winning
constituency (MP) candidate number of each electoral area against the top 7
party-list (PL) party numbers, printing a table and summary, and optionally
exporting results plus a history snapshot to JSON.

The embedding models the per-area processing loop of `compare_mp_and_pl`,
the match scan, the party-count summary with its stable descending sort,
and `export_results` (results document and history read-modify-write).
File-system state is passed explicitly: each area input carries the parsed
(or failed-to-parse) contents of its two files, and the export stage returns
the list of write effects instead of performing them.
-/

namespace MPPL

/-- One entry of an MP (constituency) results file.  JSON fields may be
absent, hence `Option`; `compare_mp_and_pl` reads them with
`top_mp.get("candidateCode", "")` and `top_mp.get("partyCode", "Unknown")`. -/
structure MPEntry where
  candidateCode : Option String
  partyCode : Option String
deriving DecidableEq

/-- A parsed MP file: `mp_data.get("entries", [])` (a missing key is the
empty list). -/
structure MPData where
  entries : List MPEntry
deriving DecidableEq

/-- One entry of a PL (party-list) results file: `pl_entry.get("partyCode", "")`
and `pl_entry.get("rank")` (no default, so `None` when absent). -/
structure PLEntry where
  partyCode : Option String
  rank : Option Int
deriving DecidableEq

/-- A parsed PL file: `pl_data.get("entries", [])`. -/
structure PLData where
  entries : List PLEntry
deriving DecidableEq

/-- The `match_info` dict appended to `all_matches`. -/
structure MatchInfo where
  area : String
  mp_number : String
  mp_party : String
  pl_rank : Option Int
  pl_party_code : String
deriving DecidableEq

/-- The row dict appended to `all_rows`. -/
structure Row where
  area : String
  mp_number : String
  mp_party : String
  matched : Bool
  status : String
deriving DecidableEq

/-- Python slice `s[n:]` on the character sequence of `s`. -/
def strSlice (s : String) (n : Nat) : String :=
  String.mk (s.data.drop n)

/-- Python `s.startswith(p)`. -/
def strStartsWith (s p : String) : Bool :=
  p.data.isPrefixOf s.data

/-- Python slice `s[-2:]`: the last two characters, or all of `s` when it is
shorter than two characters. -/
def last2 (s : String) : String :=
  String.mk (s.data.drop (s.data.length - 2))

/-- Python renders `None` as `"None"` and an int by its decimal form inside
an f-string; used for the appended status fragment `"Rank <r> (Party List <last_2>)"`. -/
def rankToString : Option Int → String
  | none => "None"
  | some i => toString i

/-- The body of the scan over one of the first seven PL entries, for MP number
`mp_number` of area `area` whose winner belongs to `mp_party`:

```
pl_party_code = pl_entry.get("partyCode", "")
last_2 = pl_party_code[-2:]
if last_2 in ["06", "09"]:
    continue
if last_2 == mp_number:
    record the status fragment "Rank <r> (Party List <last_2>)" and the match_info dict
```

Returns the status fragment and the `match_info` record when the entry is a
match, `none` when it is excluded or differs from the MP number. -/
def scanEntry (area mp_number mp_party : String) (pl_entry : PLEntry) :
    Option (String × MatchInfo) :=
  let pl_party_code := pl_entry.partyCode.getD ""
  let last_2 := last2 pl_party_code
  if last_2 = "06" ∨ last_2 = "09" then
    none
  else if last_2 = mp_number then
    some ("Rank " ++ rankToString pl_entry.rank ++ " (Party List " ++ last_2 ++ ")",
      ⟨area, mp_number, mp_party, pl_entry.rank, pl_party_code⟩)
  else
    none

/-- The whole match scan of one area: `pl_data.get("entries", [])[:7]` followed
by the loop `for pl_entry in pl_entries`, collecting the appended status
fragments and `match_info` records in order. -/
def plMatches (area mp_number mp_party : String) (pl_data : PLData) :
    List (String × MatchInfo) :=
  (pl_data.entries.take 7).filterMap (scanEntry area mp_number mp_party)

/-- Outcome of one iteration of the loop over `mp_files`: the iteration can
`continue` without output, print an error (the caught exception text) without
output, or append one `Row` together with the area's `match_info` records. -/
inductive AreaResult
  | skipped
  | errorLogged (msg : String)
  | produced (row : Row) (ms : List MatchInfo)
deriving DecidableEq

deriving instance DecidableEq for Except

/-- Input of one iteration: the area code (the MP filename minus `.json`),
the MP file contents (listed in `mp_dir`, hence present, but parsing may
fail) and the PL file contents (`none` when `pl_path` does not exist). -/
structure AreaInput where
  area : String
  mp : Except String MPData
  pl : Option (Except String PLData)
deriving DecidableEq

/-- One iteration of the loop over `mp_files` in `compare_mp_and_pl`:
skip when the paired PL file is missing; inside `try`, parse the MP file,
skip on empty `entries`, extract the MP number as the remainder of
`candidateCode` after `"CANDIDATE-MP-" + area_code` (skipping when the code
does not start with it, or when the remainder is empty — `if not mp_number`
is true for the empty string), parse the PL file, scan its first seven
entries, and build the row; any raised parse error is caught by `except`. -/
def processArea (inp : AreaInput) : AreaResult :=
  match inp.pl with
  | none => .skipped
  | some plFile =>
    match inp.mp with
    | .error e => .errorLogged e
    | .ok mp_data =>
      match mp_data.entries with
      | [] => .skipped
      | top_mp :: _ =>
        let winning_candidate := top_mp.candidateCode.getD ""
        let mp_party := top_mp.partyCode.getD "Unknown"
        let expectedPre := "CANDIDATE-MP-" ++ inp.area
        if strStartsWith winning_candidate expectedPre then
          let mp_number := strSlice winning_candidate expectedPre.length
          if mp_number = "" then
            .skipped
          else
            match plFile with
            | .error e => .errorLogged e
            | .ok pl_data =>
              let ms := plMatches inp.area mp_number mp_party pl_data
              let status :=
                if ms.isEmpty then "No Match"
                else "MATCH: " ++ String.intercalate ", " (ms.map (fun x => x.1))
              .produced ⟨inp.area, mp_number, mp_party, !ms.isEmpty, status⟩
                (ms.map (fun x => x.2))
        else
          .skipped

/-- The rows an iteration contributes to `all_rows`. -/
def rowsOf : AreaResult → List Row
  | .produced r _ => [r]
  | _ => []

/-- The records an iteration contributes to `all_matches`. -/
def matchesOf : AreaResult → List MatchInfo
  | .produced _ ms => ms
  | _ => []

/-- The error lines an iteration prints:
`print(f"Error processing {area_code}: {e}")`. -/
def logOf (inp : AreaInput) : List String :=
  match processArea inp with
  | .errorLogged e => ["Error processing " ++ inp.area ++ ": " ++ e]
  | _ => []

/-- `all_rows` accumulated over the sorted `mp_files`. -/
def runRows (l : List AreaInput) : List Row :=
  l.flatMap (fun inp => rowsOf (processArea inp))

/-- `all_matches` accumulated over the sorted `mp_files`. -/
def runMatches (l : List AreaInput) : List MatchInfo :=
  l.flatMap (fun inp => matchesOf (processArea inp))

/-- The per-area error lines printed over the whole run. -/
def runLogs (l : List AreaInput) : List String :=
  l.flatMap logOf

/-- `party_counts[p] = party_counts.get(p, 0) + 1` on an insertion-ordered
dict represented as an association list (Python dicts preserve insertion
order): an existing key keeps its position, a new key is appended. -/
def bumpCount : List (String × Nat) → String → List (String × Nat)
  | [], p => [(p, 1)]
  | (q, c) :: rest, p =>
    if q = p then (q, c + 1) :: rest else (q, c) :: bumpCount rest p

/-- `for m in all_matches: party_counts[p] = party_counts.get(p, 0) + 1`
(with `party_counts` left as the empty dict when `all_matches` is empty). -/
def partyCounts (all_matches : List MatchInfo) : List (String × Nat) :=
  all_matches.foldl (fun acc m => bumpCount acc m.mp_party) []

/-- Insert one pair into a descending-sorted list, after every element of
count greater than or equal to its own: the insertion step of Python's
stable `sorted(party_counts.items(), key=lambda item: item[1], reverse=True)`. -/
def insertDesc (x : String × Nat) : List (String × Nat) → List (String × Nat)
  | [] => [x]
  | y :: ys => if y.2 < x.2 then x :: y :: ys else y :: insertDesc x ys

/-- Python's stable descending sort by count, inserting the items in
encounter order. -/
def sortedDesc (l : List (String × Nat)) : List (String × Nat) :=
  l.foldl (fun acc x => insertDesc x acc) []

/-- Round half to even to an integer (Python's `round` tie behaviour),
modelled over the rationals. -/
def roundHalfEven (q : ℚ) : ℤ :=
  let f := ⌊q⌋
  if q - f < 1 / 2 then f
  else if 1 / 2 < q - f then f + 1
  else if f % 2 = 0 then f else f + 1

/-- Python `round(x, 2)`, modelled over the rationals. -/
def round2 (q : ℚ) : ℚ :=
  (roundHalfEven (q * 100) : ℚ) / 100

/-- The trimmed snapshot appended to `history` by `export_results`. -/
structure Snapshot where
  timestamp : String
  total_areas : Nat
  matched_areas : Nat
  match_rate : ℚ
  summary_by_party : List (String × Nat)
deriving DecidableEq

/-- The `results` document written to `docs/data/results.json`; the field
`match_list` is the JSON key `"matches"` (`all_matches` verbatim). -/
structure Results where
  timestamp : String
  total_areas : Nat
  matched_areas : Nat
  match_rate : ℚ
  summary_by_party : List (String × Nat)
  match_list : List MatchInfo
  details : List Row
deriving DecidableEq

/-- The snapshot `export_results` builds from its arguments and appends to
the history list. -/
def mkSnapshot (all_rows : List Row) (party_counts : List (String × Nat))
    (timestamp : String) : Snapshot :=
  let total_areas := all_rows.length
  let matched_areas := all_rows.countP (fun r => r.matched)
  { timestamp := timestamp
    total_areas := total_areas
    matched_areas := matched_areas
    match_rate :=
      if 0 < total_areas then round2 ((matched_areas : ℚ) / (total_areas : ℚ) * 100)
      else 0
    summary_by_party := sortedDesc party_counts }

/-- `export_results(all_rows, all_matches, party_counts)`: builds the results
document (`total_areas = len(all_rows)`, `matched_areas = sum(1 for r in
all_rows if r["matched"])`, `match_rate = round(matched_areas / total_areas
* 100, 2) if total_areas > 0 else 0`, `summary` from the stable descending
sort of `party_counts`), then reads the existing history — a missing file or
one whose parse raises starts it as the empty list — appends the snapshot and
rewrites the file in full.  Returns the results document and the history list
as written. -/
def export_results (all_rows : List Row) (all_matches : List MatchInfo)
    (party_counts : List (String × Nat)) (timestamp : String)
    (oldHistory : Option (Except String (List Snapshot))) :
    Results × List Snapshot :=
  let snap := mkSnapshot all_rows party_counts timestamp
  let results : Results :=
    { timestamp := timestamp
      total_areas := snap.total_areas
      matched_areas := snap.matched_areas
      match_rate := snap.match_rate
      summary_by_party := snap.summary_by_party
      match_list := all_matches
      details := all_rows }
  let history : List Snapshot :=
    match oldHistory with
    | none => []
    | some (Except.error _) => []
    | some (Except.ok h) => h
  (results, history ++ [snap])

/-- A write effect of `export_results`, in order: `os.makedirs(output_dir,
exist_ok=True)`, the write of `results.json`, the rewrite of `history.json`. -/
inductive WriteEff
  | mkdirOutputDir
  | writeResultsFile (r : Results)
  | writeHistoryFile (h : List Snapshot)
deriving DecidableEq

/-- What a run of `compare_mp_and_pl` produces: the accumulated rows,
matches and party counts, and the file writes it performs. -/
structure RunOutput where
  rows : List Row
  ms : List MatchInfo
  counts : List (String × Nat)
  writes : List WriteEff
deriving DecidableEq

/-- `compare_mp_and_pl(export_json)`.  `dirs_exist` is the check that both
`data/mp` and `data/pl` exist (on failure the run prints an error and returns
with no output).  `area_inputs` is one entry per sorted `.json` filename of
`data/mp`, carrying the paired file contents; `timestamp` and `oldHistory`
are the clock reading and the history-file state that `export_results` would
observe.  The function writes files only through `export_results`, and only
when `export_json` is true. -/
def compare_mp_and_pl (export_json : Bool) (dirs_exist : Bool)
    (area_inputs : List AreaInput) (timestamp : String)
    (oldHistory : Option (Except String (List Snapshot))) : RunOutput :=
  if dirs_exist then
    let all_rows := runRows area_inputs
    let all_matches := runMatches area_inputs
    let party_counts := partyCounts all_matches
    { rows := all_rows
      ms := all_matches
      counts := party_counts
      writes :=
        if export_json then
          let (results, history) :=
            export_results all_rows all_matches party_counts timestamp oldHistory
          [WriteEff.mkdirOutputDir, WriteEff.writeResultsFile results,
            WriteEff.writeHistoryFile history]
        else [] }
  else
    { rows := [], ms := [], counts := [], writes := [] }

/-! ### Helper lemmas -/

lemma last2_of_le_two (s : String) (h : s.length ≤ 2) : last2 s = s := by
  cases s with
  | mk data =>
    unfold last2
    have hd : data.length ≤ 2 := h
    rw [Nat.sub_eq_zero_of_le hd, List.drop_zero]

lemma length_last2 (s : String) : (last2 s).length = s.length - (s.length - 2) := by
  cases s with
  | mk data =>
    show (data.drop (data.length - 2)).length = data.length - (data.length - 2)
    exact List.length_drop _ _

lemma length_last2_of_two_le (s : String) (h : 2 ≤ s.length) :
    (last2 s).length = 2 := by
  rw [length_last2]
  omega

lemma scanEntry_eq_some {area mpn mpp : String} {e : PLEntry} {s : String}
    {m : MatchInfo} (h : scanEntry area mpn mpp e = some (s, m)) :
    m = ⟨area, mpn, mpp, e.rank, e.partyCode.getD ""⟩ ∧
      last2 (e.partyCode.getD "") = mpn ∧
      last2 (e.partyCode.getD "") ≠ "06" ∧ last2 (e.partyCode.getD "") ≠ "09" := by
  unfold scanEntry at h
  dsimp only at h
  split_ifs at h with h1 h2
  rw [Option.some.injEq, Prod.mk.injEq] at h
  obtain ⟨hs, hm2⟩ := h
  subst hm2
  exact ⟨rfl, h2, fun hc => h1 (Or.inl hc), fun hc => h1 (Or.inr hc)⟩

lemma mem_matchesOf {inp : AreaInput} {m : MatchInfo}
    (hm : m ∈ matchesOf (processArea inp)) :
    ∃ mpn mpp e s, scanEntry inp.area mpn mpp e = some (s, m) := by
  obtain ⟨area, mp, pl⟩ := inp
  rcases pl with _ | plf
  · simp [processArea, matchesOf] at hm
  rcases mp with e0 | mp_data
  · simp [processArea, matchesOf] at hm
  obtain ⟨entries⟩ := mp_data
  rcases entries with _ | ⟨top_mp, rest⟩
  · simp [processArea, matchesOf] at hm
  rcases plf with e1 | pl_data
  all_goals simp only [processArea] at hm
  all_goals split_ifs at hm <;> simp only [matchesOf, List.not_mem_nil] at hm
  all_goals (
    rw [List.mem_map] at hm;
    obtain ⟨⟨s, m1⟩, hmem, hEq⟩ := hm;
    unfold plMatches at hmem;
    rw [List.mem_filterMap] at hmem;
    obtain ⟨e2, _, hscan⟩ := hmem;
    subst hEq;
    exact ⟨_, _, e2, s, hscan⟩)

lemma mem_runMatches {l : List AreaInput} {m : MatchInfo}
    (hm : m ∈ runMatches l) :
    ∃ inp ∈ l, m ∈ matchesOf (processArea inp) := by
  unfold runMatches at hm
  rw [List.mem_flatMap] at hm
  exact hm

lemma lookup_bumpCount (l : List (String × Nat)) (p q : String) :
    (bumpCount l p).lookup q =
      if q = p then some ((l.lookup q).getD 0 + 1) else l.lookup q := by
  induction l with
  | nil =>
    by_cases h : q = p
    · subst h; simp [bumpCount, List.lookup]
    · have hb : (q == p) = false := beq_eq_false_iff_ne.mpr h
      simp [bumpCount, List.lookup, hb, h]
  | cons a rest ih =>
    obtain ⟨a1, c⟩ := a
    by_cases hap : a1 = p
    · subst hap
      by_cases hq : q = a1
      · subst hq
        simp [bumpCount, List.lookup]
      · have hb : (q == a1) = false := beq_eq_false_iff_ne.mpr hq
        simp [bumpCount, List.lookup, hb, hq]
    · by_cases hq : q = a1
      · subst hq
        simp only [bumpCount, if_neg hap, List.lookup, beq_self_eq_true]
      · have hb : (q == a1) = false := beq_eq_false_iff_ne.mpr hq
        simp only [bumpCount, if_neg hap, List.lookup, hb, ih]

lemma lookup_countFold (ms : List MatchInfo) (acc : List (String × Nat))
    (p : String) :
    ((ms.foldl (fun a m => bumpCount a m.mp_party) acc).lookup p).getD 0 =
      (acc.lookup p).getD 0 + ms.countP (fun m => m.mp_party == p) := by
  induction ms generalizing acc with
  | nil => simp
  | cons m rest ih =>
    rw [List.foldl_cons, ih, List.countP_cons, lookup_bumpCount]
    by_cases h : p = m.mp_party
    · simp [h]
      omega
    · have h2 : ¬(m.mp_party == p) = true := by
        simp only [beq_iff_eq]
        exact fun hc => h hc.symm
      simp [h, h2]

lemma mem_insertDesc {x y : String × Nat} {l : List (String × Nat)}
    (h : y ∈ insertDesc x l) : y = x ∨ y ∈ l := by
  induction l with
  | nil => simpa [insertDesc] using h
  | cons a rest ih =>
    unfold insertDesc at h
    split_ifs at h with hc
    · rw [List.mem_cons] at h
      rcases h with h | h
      · exact Or.inl h
      · exact Or.inr h
    · rw [List.mem_cons] at h
      rcases h with h | h
      · exact Or.inr (by rw [h]; exact List.mem_cons_self a rest)
      · rcases ih h with h2 | h2
        · exact Or.inl h2
        · exact Or.inr (List.mem_cons_of_mem a h2)

lemma pairwise_insertDesc {x : String × Nat} {l : List (String × Nat)}
    (h : l.Pairwise (fun a b => b.2 ≤ a.2)) :
    (insertDesc x l).Pairwise (fun a b => b.2 ≤ a.2) := by
  induction l with
  | nil => simp [insertDesc]
  | cons a rest ih =>
    rw [List.pairwise_cons] at h
    obtain ⟨ha, hrest⟩ := h
    unfold insertDesc
    split_ifs with hc
    · rw [List.pairwise_cons]
      refine ⟨?_, List.pairwise_cons.mpr ⟨ha, hrest⟩⟩
      intro b hb
      rw [List.mem_cons] at hb
      rcases hb with hb | hb
      · rw [hb]; exact le_of_lt hc
      · exact le_trans (ha b hb) (le_of_lt hc)
    · rw [List.pairwise_cons]
      refine ⟨?_, ih hrest⟩
      intro b hb
      rcases mem_insertDesc hb with hb | hb
      · rw [hb]; omega
      · exact ha b hb

lemma filter_insertDesc (x : String × Nat) (l : List (String × Nat))
    (hs : l.Pairwise (fun a b => b.2 ≤ a.2)) (c : Nat) :
    (insertDesc x l).filter (fun y => y.2 == c) =
      l.filter (fun y => y.2 == c) ++ if x.2 = c then [x] else [] := by
  induction l with
  | nil => by_cases h : x.2 = c <;> simp [insertDesc, h]
  | cons a rest ih =>
    rw [List.pairwise_cons] at hs
    obtain ⟨ha, hrest⟩ := hs
    unfold insertDesc
    by_cases hc : a.2 < x.2
    · rw [if_pos hc]
      by_cases hx : x.2 = c
      · have hnil : (a :: rest).filter (fun y => y.2 == c) = [] := by
          rw [List.filter_eq_nil_iff]
          intro y hy
          rw [List.mem_cons] at hy
          simp only [beq_iff_eq]
          rcases hy with hy | hy
          · rw [hy]; omega
          · have := ha y hy; omega
        rw [List.filter_cons_of_pos (by simp [hx]), hnil]
        simp [hx]
      · rw [List.filter_cons_of_neg (by simp [hx]), if_neg hx,
          List.append_nil]
    · rw [if_neg hc]
      by_cases hax : a.2 = c
      · rw [List.filter_cons_of_pos (by simp [hax]),
          List.filter_cons_of_pos (by simp [hax]), ih hrest, List.cons_append]
      · rw [List.filter_cons_of_neg (by simp [hax]),
          List.filter_cons_of_neg (by simp [hax]), ih hrest]

lemma sortedDesc_fold_invariant (l acc : List (String × Nat))
    (hs : acc.Pairwise (fun a b => b.2 ≤ a.2)) :
    (l.foldl (fun a x => insertDesc x a) acc).Pairwise (fun a b => b.2 ≤ a.2) ∧
      ∀ c : Nat, (l.foldl (fun a x => insertDesc x a) acc).filter (fun y => y.2 == c) =
        acc.filter (fun y => y.2 == c) ++ l.filter (fun y => y.2 == c) := by
  induction l generalizing acc with
  | nil => simpa using hs
  | cons x rest ih =>
    rw [List.foldl_cons]
    obtain ⟨ih1, ih2⟩ := ih (insertDesc x acc) (pairwise_insertDesc hs)
    refine ⟨ih1, fun c => ?_⟩
    rw [ih2 c, filter_insertDesc x acc hs c, List.filter_cons, List.append_assoc]
    by_cases hx : x.2 = c <;> simp [hx]

lemma sortedDesc_pairwise (l : List (String × Nat)) :
    (sortedDesc l).Pairwise (fun a b => b.2 ≤ a.2) :=
  (sortedDesc_fold_invariant l [] (List.Pairwise.nil)).1

lemma sortedDesc_stable (l : List (String × Nat)) (c : Nat) :
    (sortedDesc l).filter (fun y => y.2 == c) = l.filter (fun y => y.2 == c) := by
  have := (sortedDesc_fold_invariant l [] (List.Pairwise.nil)).2 c
  simpa using this

/-! ### Claim theorems -/

/-- The amended precondition under which an area yields a row, following the
spec wording: both files present and parsed, MP entries non-empty, and the
winning candidate code starting with `"CANDIDATE-MP-" + area_code` followed
by at least one further character. -/
def rowPrecondition (inp : AreaInput) : Bool :=
  match inp.pl, inp.mp with
  | some (Except.ok _), Except.ok d =>
    match d.entries with
    | [] => false
    | e :: _ =>
      let wc := e.candidateCode.getD ""
      let expectedPre := "CANDIDATE-MP-" ++ inp.area
      strStartsWith wc expectedPre && decide (strSlice wc expectedPre.length ≠ "")
  | _, _ => false

/-- C1, counterexample: an area whose file is present in both directories,
whose MP entries list is non-empty, and whose winning candidate code starts
with the expected code `"CANDIDATE-MP-100"` — being exactly equal to it —
produces no row: the claim asserts exactly one row for such an area. -/
theorem row_for_exact_code_counterexample :
    strStartsWith "CANDIDATE-MP-100" ("CANDIDATE-MP-" ++ "100") = true ∧
      rowsOf (processArea ⟨"100",
        Except.ok ⟨[⟨some "CANDIDATE-MP-100", some "PARTY-01"⟩]⟩,
        some (Except.ok ⟨[]⟩)⟩) = [] := by
  decide

/-- C1 (amended): an area produces exactly one row when both files are
present and parse, the MP entries list is non-empty, and the winning
candidate code extends `"CANDIDATE-MP-" + area_code` by a non-empty
remainder; an area failing any of these produces no row (and no crash:
every area yields a total `AreaResult`). -/
theorem row_iff_precondition (inp : AreaInput) :
    (rowsOf (processArea inp)).length = if rowPrecondition inp then 1 else 0 := by
  obtain ⟨area, mp, pl⟩ := inp
  rcases pl with _ | plf
  · simp [processArea, rowPrecondition, rowsOf]
  rcases mp with e0 | mp_data
  · cases plf <;> simp [processArea, rowPrecondition, rowsOf]
  obtain ⟨entries⟩ := mp_data
  rcases entries with _ | ⟨top_mp, rest⟩
  · cases plf <;> simp [processArea, rowPrecondition, rowsOf]
  rcases plf with e1 | pl_data
  · simp only [processArea, rowPrecondition, rowsOf]
    split_ifs <;> simp_all [rowsOf]
  · simp only [processArea, rowPrecondition]
    by_cases h1 : strStartsWith (top_mp.candidateCode.getD "")
        ("CANDIDATE-MP-" ++ area)
    · by_cases h2 : strSlice (top_mp.candidateCode.getD "")
          ("CANDIDATE-MP-" ++ area).length = ""
      · simp only [String.length_append] at h2
        simp [h1, h2, rowsOf]
      · simp only [String.length_append] at h2
        simp [h1, h2, rowsOf]
    · simp [h1, rowsOf]

/-- C2: a party-list entry whose party code ends in `"06"` or `"09"` is never
recorded as a match — no record of `all_matches` carries such a code, whatever
the inputs. -/
theorem excluded_codes_never_match (l : List AreaInput) (m : MatchInfo)
    (hm : m ∈ runMatches l) :
    last2 m.pl_party_code ≠ "06" ∧ last2 m.pl_party_code ≠ "09" := by
  obtain ⟨inp, _, hmem⟩ := mem_runMatches hm
  obtain ⟨mpn, mpp, e, s, hscan⟩ := mem_matchesOf hmem
  obtain ⟨hmeq, _, h06, h09⟩ := scanEntry_eq_some hscan
  rw [hmeq]
  exact ⟨h06, h09⟩

/-- A concrete one-area run: area `"100"`, winner `"CANDIDATE-MP-10005"`,
PL rank 3 carrying party code `"PARTY-05"` — a match on `"05"`. -/
def sampleRun : List AreaInput :=
  [⟨"100", Except.ok ⟨[⟨some "CANDIDATE-MP-10005", some "PARTY-01"⟩]⟩,
    some (Except.ok ⟨[⟨some "PARTY-05", some 3⟩]⟩)⟩]

/-- The match record `sampleRun` produces. -/
def sampleMatch : MatchInfo := ⟨"100", "05", "PARTY-01", some 3, "PARTY-05"⟩

/-- Witness for C2 at a concrete run containing one match. -/
theorem excluded_codes_never_match_witness :
    sampleMatch ∈ runMatches sampleRun ∧
      last2 sampleMatch.pl_party_code ≠ "06" ∧
      last2 sampleMatch.pl_party_code ≠ "09" :=
  ⟨by decide, excluded_codes_never_match sampleRun sampleMatch (by decide)⟩

/-- C3, counterexample: with area `"100"` and winning candidate code
`"CANDIDATE-MP-1006"` the extracted MP number is `"6"`, of length 1 ≠ 2,
and the party-list entry with the one-character party code `"6"` is recorded
as a match — the claim asserts no match can be recorded for such an area. -/
theorem short_mp_number_match_counterexample :
    runMatches [⟨"100",
        Except.ok ⟨[⟨some "CANDIDATE-MP-1006", some "PARTY-01"⟩]⟩,
        some (Except.ok ⟨[⟨some "6", some 1⟩]⟩)⟩] =
      [⟨"100", "6", "PARTY-01", some 1, "6"⟩] ∧
    ("6" : String).length ≠ 2 := by
  decide

/-- C3 (amended): when the extracted MP number has string length other
than 2, a match can only be recorded for a party-list entry whose party code
is shorter than two characters and equal to the MP number itself; no party
code of two or more characters ever matches. -/
theorem short_mp_number_match_shape (l : List AreaInput) (m : MatchInfo)
    (hm : m ∈ runMatches l) (hlen : m.mp_number.length ≠ 2) :
    m.pl_party_code.length < 2 ∧ m.pl_party_code = m.mp_number := by
  obtain ⟨inp, _, hmem⟩ := mem_runMatches hm
  obtain ⟨mpn, mpp, e, s, hscan⟩ := mem_matchesOf hmem
  obtain ⟨hmeq, hl2, _, _⟩ := scanEntry_eq_some hscan
  have hpc : m.pl_party_code = e.partyCode.getD "" := by rw [hmeq]
  have hmn : m.mp_number = mpn := by rw [hmeq]
  have hlt : m.pl_party_code.length < 2 := by
    by_contra hge
    push_neg at hge
    have h2 : (last2 (e.partyCode.getD "")).length = 2 :=
      length_last2_of_two_le _ (hpc ▸ hge)
    rw [hl2] at h2
    exact hlen (by rw [hmn]; exact h2)
  refine ⟨hlt, ?_⟩
  have : last2 m.pl_party_code = m.pl_party_code :=
    last2_of_le_two _ (le_of_lt hlt)
  rw [hpc] at this ⊢
  rw [← this, hl2, hmn]

/-- A concrete one-area run whose extracted MP number is the one-character
string `"6"`, matched by the one-character party code `"6"`. -/
def sampleRun6 : List AreaInput :=
  [⟨"100", Except.ok ⟨[⟨some "CANDIDATE-MP-1006", some "PARTY-01"⟩]⟩,
    some (Except.ok ⟨[⟨some "6", some 1⟩]⟩)⟩]

/-- The match record `sampleRun6` produces. -/
def sampleMatch6 : MatchInfo := ⟨"100", "6", "PARTY-01", some 1, "6"⟩

/-- Witness for C3 (amended) at a concrete run whose MP number is `"6"`. -/
theorem short_mp_number_match_shape_witness :
    sampleMatch6 ∈ runMatches sampleRun6 ∧
      sampleMatch6.pl_party_code.length < 2 ∧
      sampleMatch6.pl_party_code = sampleMatch6.mp_number :=
  ⟨by decide, short_mp_number_match_shape sampleRun6 sampleMatch6
    (by decide) (by decide)⟩

/-- C4: the summary counts one unit per match occurrence grouped by the MP
party code (the count of `p` equals the number of `all_matches` records whose
`mp_party` is `p`, not the number of matched areas); the sorted party list is
descending by count and stable — for every count value, its entries appear in
the encounter order of `party_counts` — and the exported `summary_by_party`
is that same sorted list. -/
theorem summary_by_party_spec (ms : List MatchInfo) :
    (∀ p : String, ((partyCounts ms).lookup p).getD 0 =
        ms.countP (fun m => m.mp_party == p)) ∧
    (sortedDesc (partyCounts ms)).Pairwise (fun a b => b.2 ≤ a.2) ∧
    (∀ c : Nat, (sortedDesc (partyCounts ms)).filter (fun y => y.2 == c) =
        (partyCounts ms).filter (fun y => y.2 == c)) ∧
    (∀ (all_rows : List Row) (ts : String)
        (oldH : Option (Except String (List Snapshot))),
      (export_results all_rows ms (partyCounts ms) ts oldH).1.summary_by_party =
        sortedDesc (partyCounts ms)) := by
  refine ⟨fun p => ?_, sortedDesc_pairwise _, sortedDesc_stable _,
    fun all_rows ts oldH => rfl⟩
  have h := lookup_countFold ms [] p
  simpa [partyCounts] using h

/-- C5: the match scan looks only at the first seven PL entries — entries
past index 6 never affect the outcome, however many there are. -/
theorem only_first_seven (area mpn mpp : String) (l extra : List PLEntry)
    (h : 7 ≤ l.length) :
    plMatches area mpn mpp ⟨l ++ extra⟩ = plMatches area mpn mpp ⟨l⟩ := by
  unfold plMatches
  show ((l ++ extra).take 7).filterMap _ = (l.take 7).filterMap _
  rw [List.take_append_of_le_length h]

/-- Seven PL entries, none matching MP number `"05"`. -/
def sevenEntries : List PLEntry :=
  [⟨some "X-01", some 1⟩, ⟨some "X-02", some 2⟩, ⟨some "X-03", some 3⟩,
    ⟨some "X-04", some 4⟩, ⟨some "X-07", some 5⟩, ⟨some "X-08", some 6⟩,
    ⟨some "X-10", some 7⟩]

/-- Witness for C5: an eighth entry that would match `"05"` is ignored. -/
theorem only_first_seven_witness :
    7 ≤ sevenEntries.length ∧
      plMatches "100" "05" "PARTY-01" ⟨sevenEntries ++ [⟨some "X-05", some 8⟩]⟩ =
        plMatches "100" "05" "PARTY-01" ⟨sevenEntries⟩ :=
  ⟨by decide, only_first_seven "100" "05" "PARTY-01" sevenEntries
    [⟨some "X-05", some 8⟩] (by decide)⟩

/-- C6: in the exported results, `total_areas` is the number of rows,
`matched_areas` the number of rows with `matched = true`, and `match_rate`
is `0` when there are no rows and otherwise
`round(matched_areas / total_areas * 100, 2)`. -/
theorem match_rate_spec (all_rows : List Row) (all_matches : List MatchInfo)
    (party_counts : List (String × Nat)) (ts : String)
    (oldH : Option (Except String (List Snapshot))) :
    (export_results all_rows all_matches party_counts ts oldH).1.total_areas =
        all_rows.length ∧
    (export_results all_rows all_matches party_counts ts oldH).1.matched_areas =
        all_rows.countP (fun r => r.matched) ∧
    (export_results all_rows all_matches party_counts ts oldH).1.match_rate =
      (if all_rows.length = 0 then 0
        else round2 ((all_rows.countP (fun r => r.matched) : ℚ) /
          (all_rows.length : ℚ) * 100)) := by
  refine ⟨rfl, rfl, ?_⟩
  show (if 0 < all_rows.length then
      round2 ((all_rows.countP (fun r => r.matched) : ℚ) /
        (all_rows.length : ℚ) * 100) else 0) = _
  rcases Nat.eq_zero_or_pos all_rows.length with h | h
  · rw [if_neg (by omega), if_pos h]
  · rw [if_pos h, if_neg (by omega)]

/-- C7: on export, a missing history file (`none`) or one whose parse fails
(`Except.error`) is treated as the empty history, so the rewritten file holds
exactly the one new snapshot; a valid history list is rewritten in full with
the new snapshot appended after the existing elements. -/
theorem history_read_modify_write (all_rows : List Row)
    (all_matches : List MatchInfo) (party_counts : List (String × Nat))
    (ts : String) :
    (export_results all_rows all_matches party_counts ts none).2 =
        [mkSnapshot all_rows party_counts ts] ∧
    (∀ e : String,
      (export_results all_rows all_matches party_counts ts
          (some (Except.error e))).2 =
        [mkSnapshot all_rows party_counts ts]) ∧
    (∀ h : List Snapshot,
      (export_results all_rows all_matches party_counts ts
          (some (Except.ok h))).2 =
        h ++ [mkSnapshot all_rows party_counts ts]) :=
  ⟨rfl, fun _ => rfl, fun _ => rfl⟩

/-- C8: an area whose processing raises (is caught as `errorLogged`)
contributes no row and no match; the printed error line is the area code
with the exception text; and all other areas are processed exactly as they
would be without it. -/
theorem bad_area_isolated (pre post : List AreaInput) (bad : AreaInput)
    (e : String) (hb : processArea bad = AreaResult.errorLogged e) :
    runRows (pre ++ bad :: post) = runRows pre ++ runRows post ∧
    runMatches (pre ++ bad :: post) = runMatches pre ++ runMatches post ∧
    runLogs (pre ++ bad :: post) =
      runLogs pre ++ ("Error processing " ++ bad.area ++ ": " ++ e) ::
        runLogs post := by
  refine ⟨?_, ?_, ?_⟩ <;>
    simp [runRows, runMatches, runLogs, logOf, hb, rowsOf, matchesOf]

/-- An area whose MP file fails to parse. -/
def badArea : AreaInput := ⟨"200", Except.error "boom", some (Except.ok ⟨[]⟩)⟩

/-- An area that processes normally, producing a row and a match. -/
def goodArea : AreaInput :=
  ⟨"300", Except.ok ⟨[⟨some "CANDIDATE-MP-30001", some "PARTY-02"⟩]⟩,
    some (Except.ok ⟨[⟨some "PARTY-01", some 1⟩]⟩)⟩

/-- Witness for C8: a corrupt area between two good ones is logged and the
good ones still produce their rows. -/
theorem bad_area_isolated_witness :
    processArea badArea = AreaResult.errorLogged "boom" ∧
      runRows ([goodArea] ++ badArea :: [goodArea]) =
        runRows [goodArea] ++ runRows [goodArea] ∧
      runMatches ([goodArea] ++ badArea :: [goodArea]) =
        runMatches [goodArea] ++ runMatches [goodArea] ∧
      runLogs ([goodArea] ++ badArea :: [goodArea]) =
        runLogs [goodArea] ++
          ("Error processing " ++ badArea.area ++ ": " ++ "boom") ::
            runLogs [goodArea] :=
  ⟨by decide, bad_area_isolated [goodArea] [goodArea] badArea "boom" (by decide)⟩

/-- C9: a run invoked with `export_json = False` performs no file write at
all — its write-effect list is empty for every input state. -/
theorem no_export_no_writes (dirs_exist : Bool) (l : List AreaInput)
    (ts : String) (oldH : Option (Except String (List Snapshot))) :
    (compare_mp_and_pl false dirs_exist l ts oldH).writes = [] := by
  unfold compare_mp_and_pl
  cases dirs_exist <;> simp

/-- C10: the slice `s[-2:]` of a string shorter than two characters is the
whole string; any entry whose sliced code avoids `"06"`/`"09"` and equals
the MP number is recorded; in particular the one-character codes `"6"` and
`"9"` are not excluded and match MP numbers `"6"` and `"9"`. -/
theorem single_char_code_matches :
    (∀ s : String, s.length < 2 → last2 s = s) ∧
    (∀ area mpp mpn : String, ∀ e : PLEntry,
        last2 (e.partyCode.getD "") ≠ "06" →
        last2 (e.partyCode.getD "") ≠ "09" →
        last2 (e.partyCode.getD "") = mpn →
        (scanEntry area mpn mpp e).isSome = true) ∧
    (∀ area mpp : String, ∀ r : Option Int,
        (scanEntry area "6" mpp ⟨some "6", r⟩).isSome = true ∧
        (scanEntry area "9" mpp ⟨some "9", r⟩).isSome = true) := by
  have h2 : ∀ area mpp mpn : String, ∀ e : PLEntry,
      last2 (e.partyCode.getD "") ≠ "06" →
      last2 (e.partyCode.getD "") ≠ "09" →
      last2 (e.partyCode.getD "") = mpn →
      (scanEntry area mpn mpp e).isSome = true := by
    intro area mpp mpn e h06 h09 heq
    unfold scanEntry
    dsimp only
    rw [if_neg ?_, if_pos heq]
    · rfl
    · rintro (hc | hc)
      · exact h06 hc
      · exact h09 hc
  refine ⟨fun s h => last2_of_le_two s (Nat.le_of_lt h), h2, fun area mpp r =>
    ⟨h2 area mpp "6" ⟨some "6", r⟩
        (by decide : last2 ((some "6").getD "") ≠ "06")
        (by decide : last2 ((some "6").getD "") ≠ "09")
        (by decide : last2 ((some "6").getD "") = "6"),
      h2 area mpp "9" ⟨some "9", r⟩
        (by decide : last2 ((some "9").getD "") ≠ "06")
        (by decide : last2 ((some "9").getD "") ≠ "09")
        (by decide : last2 ((some "9").getD "") = "9")⟩⟩

/-- Witness for C10 at the one-character code `"6"`. -/
theorem single_char_code_matches_witness :
    last2 "6" = "6" ∧
      (scanEntry "100" "6" "PARTY-01" ⟨some "6", some 1⟩).isSome = true :=
  ⟨single_char_code_matches.1 "6" (by decide),
    (single_char_code_matches.2.2 "100" "PARTY-01" (some 1)).1⟩

end MPPL
